import Mathlib

/-!
Verification of the shared-services repository core: the generic Firestore
repository (pkg/db/firestore.go), the sparse update-map builder and file-type
helpers (internal/services/user_service.go), the GCS blob store (pkg/gcs/gcs.go)
and the document service orchestration (internal/services/document_service.go).

Go strings are modelled as Lean `String`; Go's bytewise string comparison
(which Firestore uses to order document IDs, and which on UTF-8 agrees with
codepoint order) is modelled by an explicit lexicographic comparison `strLt`
on the character list, so that all definitions evaluate on concrete inputs.
Byte slices are modelled as `List UInt8`.  Fallible operations return
`Except`.  Remote store state is threaded explicitly: each operation takes
the current contents of the collection/bucket and returns the new contents.
-/

/-- Lexicographic order on character lists, the order Go uses to compare
strings byte by byte (for ASCII and, more generally, for UTF-8 encoded
codepoints the two orders agree). -/
def lexLt : List Char → List Char → Bool
  | [], [] => false
  | [], _ :: _ => true
  | _ :: _, [] => false
  | a :: as, b :: bs => if a < b then true else if a = b then lexLt as bs else false

/-- Go string comparison `a < b`, used by Firestore to order document IDs. -/
def strLt (a b : String) : Bool := lexLt a.data b.data

/-- ASCII lower-casing of a character; Go's strings.ToLower restricted to
ASCII, which covers every extension the code compares against. -/
def asciiToLower (c : Char) : Char :=
  if 'A' ≤ c ∧ c ≤ 'Z' then Char.ofNat (c.toNat + 32) else c

/-- Model of Go's strings.ToLower (ASCII fragment). -/
def strToLower (s : String) : String := ⟨s.data.map asciiToLower⟩

/-- Model of Go's strings.HasPrefix: s starts with p. -/
def strStartsWith (s p : String) : Bool := decide (s.data.take p.data.length = p.data)

theorem lexLt_trans : ∀ {a b c : List Char},
    lexLt a b = true → lexLt b c = true → lexLt a c = true
  | [], _ :: _, _ :: _, _, _ => rfl
  | a :: as, b :: bs, c :: cs, h1, h2 => by
    simp only [lexLt] at h1 h2 ⊢
    split at h1
    · split at h2
      · have : a < c := lt_trans (by assumption) (by assumption)
        simp [this]
      · split at h2
        · subst_vars
          simp_all
        · exact absurd h2 (by simp)
    · split at h1
      · subst_vars
        split at h2
        · simp_all
        · split at h2
          · subst_vars
            simp_all [lexLt_trans h1 h2]
          · simp_all
      · simp_all

theorem lexLt_irrefl : ∀ (a : List Char), lexLt a a = false
  | [] => rfl
  | a :: as => by simp [lexLt, lexLt_irrefl as]

theorem lexLt_asymm {a b : List Char} (h : lexLt a b = true) : lexLt b a = false := by
  cases hv : lexLt b a
  · rfl
  · have := lexLt_trans h hv
    rw [lexLt_irrefl] at this
    cases this

theorem strLt_trans {a b c : String} (h1 : strLt a b = true) (h2 : strLt b c = true) :
    strLt a c = true := lexLt_trans h1 h2

theorem strLt_irrefl (a : String) : strLt a a = false := lexLt_irrefl a.data

theorem strLt_asymm {a b : String} (h : strLt a b = true) : strLt b a = false :=
  lexLt_asymm h

/-- An element reported by getLast? is a member of the list. -/
theorem getLast?_mem {α : Type _} : ∀ {l : List α} {e : α}, l.getLast? = some e → e ∈ l := by
  intro l
  induction l with
  | nil => intro e h; cases h
  | cons a as ih =>
    intro e h
    cases as with
    | nil =>
      simp only [List.getLast?_singleton, Option.some.injEq] at h
      simp [h]
    | cons b bs =>
      rw [List.getLast?_cons_cons] at h
      exact List.mem_cons_of_mem _ (ih h)

/-- In a pairwise-related list, every element is related to the last one
(or is the last one). -/
theorem pairwise_getLast?_ge {α : Type _} {r : α → α → Prop} :
    ∀ {l : List α} {e : α}, l.Pairwise r → l.getLast? = some e →
      ∀ x ∈ l, x = e ∨ r x e := by
  intro l
  induction l with
  | nil => intro e _ h; cases h
  | cons a as ih =>
    intro e hp hl x hx
    cases as with
    | nil =>
      simp only [List.getLast?_singleton, Option.some.injEq] at hl
      rcases List.mem_singleton.mp hx with rfl
      exact Or.inl hl
    | cons b bs =>
      rw [List.getLast?_cons_cons] at hl
      rcases List.mem_cons.mp hx with rfl | hx
      · right
        exact (List.pairwise_cons.mp hp).1 e (getLast?_mem hl)
      · exact ih (List.pairwise_cons.mp hp).2 hl x hx

/-!
Firestore value and document model.  The Go code stores documents as field
maps (map[string]interface{}); the values this program actually stores are
strings, integers, the firestore.ServerTimestamp sentinel and one level of
nested string maps (the user's address), which `FSValue` captures.
-/

/-- A Firestore field value as used by this program: a string, an integer,
the ServerTimestamp sentinel, or a one-level nested map of strings. -/
inductive FSValue : Type
  | str (s : String)
  | int (n : Int)
  | ts
  | nested (m : List (String × String))
deriving DecidableEq, Repr

/-- A stored Firestore document: an association list of field values. -/
abbrev FDoc : Type := List (String × FSValue)

/-- A Firestore collection: documents keyed by document ID. -/
abbrev FSColl : Type := List (String × FDoc)

/-- Set or replace one field of a document (Firestore field merge). -/
def fsUpsertField (doc : FDoc) (kv : String × FSValue) : FDoc :=
  if doc.any (fun f => f.1 = kv.1) then
    doc.map (fun f => if f.1 = kv.1 then kv else f)
  else doc ++ [kv]

/-- Merge a field map into an existing document, as firestore.MergeAll does
for the top-level fields this program writes. -/
def fsMergeAll (doc : FDoc) (data : FDoc) : FDoc := data.foldl fsUpsertField doc

/-- Firestore client Set with the MergeAll option.  Documented Firestore
semantics: if the document does not exist, Set creates it (merge options
never make Set fail on a missing document). -/
def fsSetMerge (coll : FSColl) (id : String) (data : FDoc) : FSColl :=
  if coll.any (fun e => e.1 = id) then
    coll.map (fun e => if e.1 = id then (id, fsMergeAll e.2 data) else e)
  else coll ++ [(id, data)]

/-- gRPC status codes distinguished by pkg/db/firestore.go. -/
inductive GrpcCode : Type
  | notFound
  | unknown
deriving DecidableEq

/-- Firestore client document Delete.  Documented Firestore semantics:
deleting a document that does not exist is not an error, so the returned
error is always nil here (transport failures are outside the model). -/
def fsDocDelete {α : Type} (coll : List (String × α)) (id : String) :
    List (String × α) × Option GrpcCode :=
  (coll.filter (fun e => decide (e.1 ≠ id)), none)

namespace db

/-- Embeds firestoreRepository.GetByID composed with the Firestore point
read: a missing document surfaces as a NotFound error, an existing one is
decoded (decoding is the identity in the model) and returned. -/
def GetByID {α : Type} (coll : List (String × α)) (id : String) : Except String α :=
  match coll.find? (fun e => decide (e.1 = id)) with
  | none => Except.error ("document with id " ++ id ++ " not found")
  | some e => Except.ok e.2

/-- Embeds firestoreRepository.Update: Set with MergeAll, then a re-read of
the document, failing only if the re-read misses.  Returns the decoded
document and the new collection contents. -/
def Update (coll : FSColl) (id : String) (data : FDoc) : Except String (FDoc × FSColl) :=
  let coll' := fsSetMerge coll id data
  match coll'.find? (fun e => decide (e.1 = id)) with
  | none => Except.error ("document with id " ++ id ++ " not found after update")
  | some e => Except.ok (e.2, coll')

/-- Embeds firestoreRepository.Delete: calls the client Delete, then checks
the returned error for codes.NotFound before the generic error check.
Since the client Delete of a missing document returns a nil error, both
error branches mirror the Go source but are never taken in the model. -/
def Delete {α : Type} (coll : List (String × α)) (id : String) :
    Except String (List (String × α)) :=
  let r := fsDocDelete coll id
  if r.2 = some GrpcCode.notFound then
    Except.error ("document with id " ++ id ++ " not found")
  else
    match r.2 with
    | some _ => Except.error ("failed to delete document " ++ id)
    | none => Except.ok r.1

/-- The documents the Firestore query visits for a page request: the whole
collection in ascending document-ID order when the page token is empty,
otherwise (StartAfter) only the documents with ID strictly greater than the
token.  The collection listing is taken in ascending ID order. -/
def remAfter {α : Type} (coll : List (String × α)) (tok : String) : List (String × α) :=
  if tok = "" then coll else coll.filter (fun e => strLt tok e.1)

/-- Embeds firestoreRepository.GetAll.  Items are returned as (document ID,
decoded data) pairs; the Go code returns the data and keeps the ID of the
last iterated document in lastDocID.  nextPageToken is set to that last ID
exactly when pageSize > 0 and the page is full. -/
def GetAll {α : Type} (coll : List (String × α)) (pageToken : String) (pageSize : Int) :
    List (String × α) × String :=
  let results :=
    if 0 < pageSize then (remAfter coll pageToken).take pageSize.toNat
    else remAfter coll pageToken
  let lastDocID := (results.getLast?.map Prod.fst).getD ""
  let nextPageToken :=
    if 0 < pageSize ∧ (results.length : Int) = pageSize then lastDocID else ""
  (results, nextPageToken)

/-- Embeds firestoreRepository.GetByQuery.  The AND of the Where constraints
is the predicate p on decoded data; ordering is by document ID ascending.
A non-empty page token is first resolved by a point read of that document,
and the whole call fails if the point read fails. -/
def GetByQuery {α : Type} (coll : List (String × α)) (p : α → Bool)
    (pageToken : String) (pageSize : Int) :
    Except String (List (String × α) × String) :=
  let base := coll.filter (fun e => p e.2)
  let start : Except String (List (String × α)) :=
    if pageToken = "" then Except.ok base
    else
      match coll.find? (fun e => decide (e.1 = pageToken)) with
      | none => Except.error ("failed to get page token document " ++ pageToken)
      | some snap => Except.ok (base.filter (fun e => strLt snap.1 e.1))
  match start with
  | Except.error e => Except.error e
  | Except.ok rest =>
    let results := if 0 < pageSize then rest.take pageSize.toNat else rest
    let nextPageToken :=
      if 0 < pageSize ∧ (results.length : Int) = pageSize ∧ results.getLast?.isSome
      then (results.getLast?.map Prod.fst).getD "" else ""
    Except.ok (results, nextPageToken)

/-- The paging protocol described by the spec: call GetAll, and while the
returned token is non-empty feed it back, concatenating the pages.  Fuel
bounds the recursion; any fuel larger than the collection size is enough. -/
def paginateGetAll {α : Type} (coll : List (String × α)) (pageSize : Int) :
    Nat → String → List (String × α)
  | 0, _ => []
  | Nat.succ n, tok =>
    let r := GetAll coll tok pageSize
    if r.2 = "" then r.1 else r.1 ++ paginateGetAll coll pageSize n r.2

end db

/-- The page-window view of a collection is always part of the collection. -/
theorem remAfter_subset {α : Type} (coll : List (String × α)) (tok : String) :
    db.remAfter coll tok ⊆ coll := by
  unfold db.remAfter
  split
  · exact fun _ h => h
  · exact fun x hx => (List.mem_filter.mp hx).1

/-- Characterization of GetAll for a positive page size. -/
theorem GetAll_pos {α : Type} (coll : List (String × α)) (tok : String) (k : Int)
    (h0 : 0 < k) :
    db.GetAll coll tok k =
      ((db.remAfter coll tok).take k.toNat,
       if (((db.remAfter coll tok).take k.toNat).length : Int) = k
       then ((((db.remAfter coll tok).take k.toNat).getLast?.map Prod.fst).getD "") else "") := by
  simp [db.GetAll, h0]

/-- Characterization of GetAll for a non-positive page size (no limit). -/
theorem GetAll_nonpos {α : Type} (coll : List (String × α)) (tok : String) (k : Int)
    (h0 : ¬ 0 < k) :
    db.GetAll coll tok k = (db.remAfter coll tok, "") := by
  simp [db.GetAll, h0]

/-- In an ID-sorted list, the elements strictly after the last ID of the
first m elements are exactly the elements past position m. -/
theorem filter_gt_getLast_take {α : Type} (l : List (String × α)) (m : Nat) (e : String × α)
    (hs : l.Pairwise (fun a b => strLt a.1 b.1 = true))
    (hl : (l.take m).getLast? = some e) :
    l.filter (fun x => strLt e.1 x.1) = l.drop m := by
  have hmem : e ∈ l.take m := getLast?_mem hl
  have htake : (l.take m).Pairwise (fun a b => strLt a.1 b.1 = true) :=
    List.Pairwise.sublist (List.take_sublist m l) hs
  have hparts := List.pairwise_append.mp ((List.take_append_drop m l).symm ▸ hs)
  have h1 : ∀ x ∈ l.take m, ¬ strLt e.1 x.1 = true := by
    intro x hx
    rcases pairwise_getLast?_ge htake hl x hx with rfl | hlt
    · simp [strLt_irrefl]
    · simp [strLt_asymm hlt]
  have h2 : ∀ x ∈ l.drop m, strLt e.1 x.1 = true := fun x hx => hparts.2.2 e hmem x hx
  calc l.filter (fun x => strLt e.1 x.1)
      = (l.take m ++ l.drop m).filter (fun x => strLt e.1 x.1) := by
        rw [List.take_append_drop]
    _ = (l.take m).filter (fun x => strLt e.1 x.1) ++
          (l.drop m).filter (fun x => strLt e.1 x.1) := by
        rw [List.filter_append]
    _ = [] ++ l.drop m := by
        rw [List.filter_eq_nil_iff.mpr h1, List.filter_eq_self.mpr h2]
    _ = l.drop m := List.nil_append _

/-- Resolving the next-page token: starting strictly after the last ID of
the current page is the same as dropping the current page from the window. -/
theorem remAfter_getLast_take {α : Type} (coll : List (String × α)) (tok : String)
    (m : Nat) (e : String × α)
    (hs : coll.Pairwise (fun a b => strLt a.1 b.1 = true))
    (he : ((db.remAfter coll tok).take m).getLast? = some e)
    (hne : e.1 ≠ "") :
    db.remAfter coll e.1 = (db.remAfter coll tok).drop m := by
  have hgoalL : db.remAfter coll e.1 = coll.filter (fun x => strLt e.1 x.1) := by
    simp [db.remAfter, hne]
  by_cases htok : tok = ""
  · have hrem : db.remAfter coll tok = coll := by simp [db.remAfter, htok]
    rw [hrem] at he ⊢
    rw [hgoalL]
    exact filter_gt_getLast_take coll m e hs he
  · have hrem : db.remAfter coll tok = coll.filter (fun x => strLt tok x.1) := by
      simp [db.remAfter, htok]
    rw [hrem] at he ⊢
    have hmem : e ∈ coll.filter (fun x => strLt tok x.1) :=
      (List.take_sublist m _).subset (getLast?_mem he)
    have htoklt : strLt tok e.1 = true := by
      simpa using (List.mem_filter.mp hmem).2
    have hpf : (coll.filter (fun x => strLt tok x.1)).Pairwise
        (fun a b => strLt a.1 b.1 = true) := List.Pairwise.filter _ hs
    have hcentral := filter_gt_getLast_take _ m e hpf he
    rw [hgoalL, ← hcentral, List.filter_filter]
    apply List.filter_congr
    intro x _
    cases hpx : strLt e.1 x.1
    · simp
    · simp [strLt_trans htoklt hpx]

/-- Driving the pagination loop from any token consumes exactly the
remaining window, provided the fuel exceeds its length. -/
theorem paginate_complete_aux {α : Type} (coll : List (String × α)) (k : Int)
    (hs : coll.Pairwise (fun a b => strLt a.1 b.1 = true))
    (hne : ∀ e ∈ coll, e.1 ≠ "") (hk : 1 ≤ k) :
    ∀ (fuel : Nat) (tok : String), (db.remAfter coll tok).length < fuel →
      db.paginateGetAll coll k fuel tok = db.remAfter coll tok := by
  intro fuel
  induction fuel with
  | zero => intro tok h; omega
  | succ n ih =>
    intro tok hfuel
    have h0 : (0 : Int) < k := by omega
    have hm1 : 1 ≤ k.toNat := by omega
    by_cases hlen : (db.remAfter coll tok).length < k.toNat
    · have htake : (db.remAfter coll tok).take k.toNat = db.remAfter coll tok :=
        List.take_of_length_le (by omega)
      have hcond : ¬ ((((db.remAfter coll tok).take k.toNat).length : Int) = k) := by
        rw [htake]
        omega
      simp only [db.paginateGetAll, GetAll_pos coll tok k h0, hcond, if_false]
      simp [htake]
    · have hlen2 : ((db.remAfter coll tok).take k.toNat).length = k.toNat := by
        rw [List.length_take]
        omega
      have hnenil : (db.remAfter coll tok).take k.toNat ≠ [] := by
        apply List.ne_nil_of_length_pos
        omega
      obtain ⟨e, hgl⟩ : ∃ e, ((db.remAfter coll tok).take k.toNat).getLast? = some e := by
        cases hg : ((db.remAfter coll tok).take k.toNat).getLast? with
        | none => exact absurd (List.getLast?_eq_none_iff.mp hg) hnenil
        | some e => exact ⟨e, rfl⟩
      have hemem : e ∈ coll :=
        remAfter_subset coll tok ((List.take_sublist _ _).subset (getLast?_mem hgl))
      have heneq : e.1 ≠ "" := hne e hemem
      have hcond : (((db.remAfter coll tok).take k.toNat).length : Int) = k := by
        rw [hlen2]
        omega
      have hdrop : db.remAfter coll e.1 = (db.remAfter coll tok).drop k.toNat :=
        remAfter_getLast_take coll tok k.toNat e hs hgl heneq
      have hih : db.paginateGetAll coll k n e.1 = db.remAfter coll e.1 := by
        apply ih
        rw [hdrop, List.length_drop]
        omega
      simp only [db.paginateGetAll, GetAll_pos coll tok k h0, hcond, if_true, hgl,
        Option.map_some', Option.getD_some]
      rw [if_neg heneq, hih, hdrop, List.take_append_drop]

/-- C1: contrary to the claim, Update of an identifier with no record does
not fail with NotFound: the merge-write creates the record from the field
map and Update returns it.  Evaluated at the failing input: empty
collection, id "u1", field map {phone: "0123"}. -/
theorem C1_update_missing_creates_record :
    db.Update ([] : FSColl) "u1" [("phone", FSValue.str "0123")] =
      Except.ok ([("phone", FSValue.str "0123")],
                 [("u1", [("phone", FSValue.str "0123")])]) := by
  rfl

/-- C2: contrary to the claim, Delete of an identifier with no record does
not fail with NotFound: the Firestore delete of a missing document is a
no-op success, so Delete returns ok and leaves the collection unchanged,
on the first call and (the state being unchanged) on every repeated call. -/
theorem C2_delete_missing_succeeds :
    db.Delete [("existing", [("id", FSValue.str "existing")])] "missing" =
      Except.ok [("existing", [("id", FSValue.str "existing")])] ∧
    db.Delete ([] : FSColl) "missing" = Except.ok ([] : FSColl) :=
  ⟨rfl, rfl⟩

/-- C3: the next token returned by GetAll is non-empty exactly when the page
size is positive and the page came back exactly full, in which case it is
the identifier of the last returned item; and when the remaining window has
exactly pageSize records (collection size an exact multiple of pageSize),
the final full page still returns a non-empty token although the follow-up
page is empty. -/
theorem C3_next_token_iff_full_page {α : Type} (coll : List (String × α))
    (tok : String) (k : Int)
    (hne : ∀ e ∈ coll, e.1 ≠ "")
    (hsort : coll.Pairwise (fun a b => strLt a.1 b.1 = true)) :
    ((db.GetAll coll tok k).2 ≠ "" ↔
      0 < k ∧ (((db.GetAll coll tok k).1.length : Int) = k)) ∧
    (∀ e, (db.GetAll coll tok k).1.getLast? = some e →
      (db.GetAll coll tok k).2 ≠ "" → (db.GetAll coll tok k).2 = e.1) ∧
    (0 < k → ((db.remAfter coll tok).length : Int) = k →
      (db.GetAll coll tok k).2 ≠ "" ∧
      (db.GetAll coll ((db.GetAll coll tok k).2) k).1 = []) := by
  by_cases h0 : 0 < k
  · refine ⟨?_, ?_, ?_⟩
    · rw [GetAll_pos coll tok k h0]
      by_cases hcond : ((((db.remAfter coll tok).take k.toNat).length : Int) = k)
      · rw [if_pos hcond]
        have hnenil : (db.remAfter coll tok).take k.toNat ≠ [] := by
          apply List.ne_nil_of_length_pos
          omega
        obtain ⟨e, hgl⟩ : ∃ e, ((db.remAfter coll tok).take k.toNat).getLast? = some e := by
          cases hg : ((db.remAfter coll tok).take k.toNat).getLast? with
          | none => exact absurd (List.getLast?_eq_none_iff.mp hg) hnenil
          | some e => exact ⟨e, rfl⟩
        have hemem : e ∈ coll :=
          remAfter_subset coll tok ((List.take_sublist _ _).subset (getLast?_mem hgl))
        simp only [hgl, Option.map_some', Option.getD_some]
        exact iff_of_true (hne e hemem) ⟨h0, hcond⟩
      · rw [if_neg hcond]
        exact iff_of_false (by simp) (fun hc => hcond hc.2)
    · intro e hgl hnext
      rw [GetAll_pos coll tok k h0] at hgl hnext ⊢
      by_cases hcond : ((((db.remAfter coll tok).take k.toNat).length : Int) = k)
      · rw [if_pos hcond] at hnext ⊢
        simp only at hgl
        simp [hgl]
      · rw [if_neg hcond] at hnext
        exact absurd rfl hnext
    · intro _ hlenk
      have hsel : (db.remAfter coll tok).take k.toNat = db.remAfter coll tok :=
        List.take_of_length_le (by omega)
      have hnenil : (db.remAfter coll tok).take k.toNat ≠ [] := by
        apply List.ne_nil_of_length_pos
        rw [hsel]
        omega
      obtain ⟨e, hgl⟩ : ∃ e, ((db.remAfter coll tok).take k.toNat).getLast? = some e := by
        cases hg : ((db.remAfter coll tok).take k.toNat).getLast? with
        | none => exact absurd (List.getLast?_eq_none_iff.mp hg) hnenil
        | some e => exact ⟨e, rfl⟩
      have hemem : e ∈ coll :=
        remAfter_subset coll tok ((List.take_sublist _ _).subset (getLast?_mem hgl))
      have hcond : ((((db.remAfter coll tok).take k.toNat).length : Int) = k) := by
        rw [hsel]
        omega
      have hnexteq : (db.GetAll coll tok k).2 = e.1 := by
        rw [GetAll_pos coll tok k h0]
        simp only [if_pos hcond, hgl, Option.map_some', Option.getD_some]
      refine ⟨by rw [hnexteq]; exact hne e hemem, ?_⟩
      rw [hnexteq, GetAll_pos coll e.1 k h0]
      have hdrop : db.remAfter coll e.1 = (db.remAfter coll tok).drop k.toNat :=
        remAfter_getLast_take coll tok k.toNat e hsort hgl (hne e hemem)
      simp only
      rw [hdrop, List.drop_eq_nil_of_le (by omega), List.take_nil]
  · simp only [GetAll_nonpos coll tok k h0]
    refine ⟨by simp [h0], ?_, ?_⟩
    · intro e _ hcontra
      exact absurd rfl hcontra
    · intro hk
      exact absurd hk h0

/-- C3 witness: a concrete sorted three-record collection with page size 2,
discharging the non-empty-ID and sortedness hypotheses. -/
theorem C3_witness :
    ((∀ e ∈ [("a", 0), ("b", 1), ("c", 2)], e.1 ≠ "") ∧
     ([("a", 0), ("b", 1), ("c", 2)] : List (String × Nat)).Pairwise
       (fun a b => strLt a.1 b.1 = true)) ∧
    ((db.GetAll [("a", 0), ("b", 1), ("c", 2)] "" (2 : Int)).2 ≠ "" ↔
      (0 : Int) < 2 ∧
      (((db.GetAll [("a", 0), ("b", 1), ("c", 2)] "" (2 : Int)).1.length : Int) = 2) ) :=
  ⟨⟨by decide, by decide⟩,
   (C3_next_token_iff_full_page [("a", 0), ("b", 1), ("c", 2)] "" 2
     (by decide) (by decide)).1⟩

/-- C4: starting from an empty token and feeding each returned next token
back until it is empty concatenates to exactly the unlimited listing of
the collection, for any page size k ≥ 1, any ID-sorted collection with
non-empty IDs. -/
theorem C4_pagination_complete {α : Type} (coll : List (String × α)) (k : Int)
    (hsort : coll.Pairwise (fun a b => strLt a.1 b.1 = true))
    (hne : ∀ e ∈ coll, e.1 ≠ "") (hk : 1 ≤ k) :
    db.paginateGetAll coll k (coll.length + 1) "" = (db.GetAll coll "" 0).1 := by
  have h1 : db.remAfter coll "" = coll := by simp [db.remAfter]
  have h2 := paginate_complete_aux coll k hsort hne hk (coll.length + 1) ""
    (by rw [h1]; omega)
  rw [h2, GetAll_nonpos coll "" 0 (by omega)]

/-- C4 witness: a five-record collection paged with k = 2 (final page a
partial page) concatenates to the unlimited listing. -/
theorem C4_witness :
    (([("a", 10), ("b", 11), ("c", 12), ("d", 13), ("e", 14)] :
        List (String × Nat)).Pairwise (fun a b => strLt a.1 b.1 = true) ∧
     (∀ e ∈ [("a", 10), ("b", 11), ("c", 12), ("d", 13), ("e", 14)], e.1 ≠ "") ∧
     (1 : Int) ≤ 2) ∧
    db.paginateGetAll [("a", 10), ("b", 11), ("c", 12), ("d", 13), ("e", 14)] 2
        ([("a", 10), ("b", 11), ("c", 12), ("d", 13), ("e", 14)].length + 1) "" =
      (db.GetAll [("a", 10), ("b", 11), ("c", 12), ("d", 13), ("e", 14)] "" 0).1 :=
  ⟨⟨by decide, by decide, by decide⟩,
   C4_pagination_complete [("a", 10), ("b", 11), ("c", 12), ("d", 13), ("e", 14)] 2
     (by decide) (by decide) (by decide)⟩

/-- C10: GetByQuery with a non-empty page token whose point read finds no
record fails as a whole with the point-read error; it does not fall back to
the start of the collection. -/
theorem C10_query_fails_on_bad_token {α : Type} (coll : List (String × α))
    (p : α → Bool) (pageToken : String) (k : Int)
    (htok : pageToken ≠ "")
    (habs : ∀ e ∈ coll, e.1 ≠ pageToken) :
    db.GetByQuery coll p pageToken k =
      Except.error ("failed to get page token document " ++ pageToken) := by
  have hfind : coll.find? (fun e => decide (e.1 = pageToken)) = none := by
    rw [List.find?_eq_none]
    intro e he
    simpa using habs e he
  simp [db.GetByQuery, htok, hfind]

/-- C10 witness: querying a concrete one-record collection with the unknown
token "zz" fails with the point-read error. -/
theorem C10_witness :
    (("zz" : String) ≠ "" ∧ (∀ e ∈ [("a", 1)], e.1 ≠ "zz")) ∧
    db.GetByQuery [("a", 1)] (fun _ => true) "zz" 5 =
      Except.error ("failed to get page token document " ++ "zz") :=
  ⟨⟨by decide, by decide⟩,
   C10_query_fails_on_bad_token [("a", 1)] (fun _ => true) "zz" 5
     (by decide) (by decide)⟩

/-!
User model (pkg/models) and the sparse update-map builder
(internal/services/user_service.go).  The reflection loop of
buildUpdateMapFromUser is unrolled over the concrete fields of models.User,
in struct order, with each field's firestore tag: id, first_name, last_name,
email, phone, address (a nested struct, recursed one level), firebase_id,
and the two time.Time fields created_at / updated_at, which the loop skips.
All these fields are strings, so the zero-value skip is the empty-string
check; the update map is modelled as an association list in insertion
order (Go maps are unordered, so only the key-value contents matter).
-/

/-- Embeds models.Address (firestore tags: building_number, street, city,
zip_code, country). -/
structure Address : Type where
  buildingNumber : String
  street : String
  city : String
  postCode : String
  country : String
deriving DecidableEq, Repr

/-- Embeds models.User; the two time.Time fields are opaque timestamps. -/
structure User : Type where
  id : String
  firstName : String
  lastName : String
  email : String
  phone : String
  address : Address
  firebaseID : String
  createdAt : Nat
  updatedAt : Nat
deriving DecidableEq, Repr

namespace services

/-- Embeds buildNestedUpdateMap applied to the user's Address value: every
string field with a firestore tag is included under its tag name unless it
is the empty string (the zero-value skip). -/
def buildNestedUpdateMap (a : Address) : List (String × String) :=
  (if a.buildingNumber = "" then [] else [("building_number", a.buildingNumber)]) ++
  (if a.street = "" then [] else [("street", a.street)]) ++
  (if a.city = "" then [] else [("city", a.city)]) ++
  (if a.postCode = "" then [] else [("zip_code", a.postCode)]) ++
  (if a.country = "" then [] else [("country", a.country)])

/-- Embeds buildUpdateMapFromUser (non-nil receiver): skips zero-valued
(empty-string) fields, recurses one level into the Address struct and
includes the nested map only when non-empty, and skips the time.Time
fields created_at and updated_at entirely. -/
def buildUpdateMapFromUser (u : User) : List (String × FSValue) :=
  (if u.id = "" then [] else [("id", FSValue.str u.id)]) ++
  (if u.firstName = "" then [] else [("first_name", FSValue.str u.firstName)]) ++
  (if u.lastName = "" then [] else [("last_name", FSValue.str u.lastName)]) ++
  (if u.email = "" then [] else [("email", FSValue.str u.email)]) ++
  (if u.phone = "" then [] else [("phone", FSValue.str u.phone)]) ++
  (if 0 < (buildNestedUpdateMap u.address).length
   then [("address", FSValue.nested (buildNestedUpdateMap u.address))] else []) ++
  (if u.firebaseID = "" then [] else [("firebase_id", FSValue.str u.firebaseID)])

/-- Embeds the update-map part of userService.Update: build the map from
the sparse user; if it is empty skip the store update (none), otherwise
add the server-managed updated_at timestamp and send the map. -/
def userUpdatePayload (u : User) : Option (List (String × FSValue)) :=
  let updates := buildUpdateMapFromUser u
  if updates.length = 0 then none
  else some (updates ++ [("updated_at", FSValue.ts)])

end services

/-- A sparse user whose only non-zero field is phone = "0123". -/
def phoneOnlyUser : User :=
  { id := "", firstName := "", lastName := "", email := "", phone := "0123",
    address := { buildingNumber := "", street := "", city := "", postCode := "",
                 country := "" },
    firebaseID := "", createdAt := 0, updatedAt := 0 }

/-- Membership in a skipped-when-c singleton chunk. -/
theorem mem_skip_chunk {β : Type} {c : Prop} [Decidable c] {x y : β}
    (h : x ∈ if c then ([] : List β) else [y]) : x = y ∧ ¬ c := by
  split at h
  · cases h
  · exact ⟨List.mem_singleton.mp h, by assumption⟩

/-- Membership in an included-when-c singleton chunk. -/
theorem mem_keep_chunk {β : Type} {c : Prop} [Decidable c] {x y : β}
    (h : x ∈ if c then [y] else ([] : List β)) : x = y ∧ c := by
  split at h
  · exact ⟨List.mem_singleton.mp h, by assumption⟩
  · cases h

/-- C5: every key in the map built by buildUpdateMapFromUser belongs to a
non-timestamp field whose input value is non-zero (non-empty string, or the
address struct with a non-empty one-level nested map); in particular the
timestamp fields never appear, and for a user whose only non-zero field is
phone = "0123" the map sent to the store update is exactly
{phone: "0123", updated_at: ServerTimestamp}. -/
theorem C5_update_map_sparse :
    (∀ (u : User) (key : String) (v : FSValue),
        (key, v) ∈ services.buildUpdateMapFromUser u →
        (key = "id" ∧ v = FSValue.str u.id ∧ u.id ≠ "") ∨
        (key = "first_name" ∧ v = FSValue.str u.firstName ∧ u.firstName ≠ "") ∨
        (key = "last_name" ∧ v = FSValue.str u.lastName ∧ u.lastName ≠ "") ∨
        (key = "email" ∧ v = FSValue.str u.email ∧ u.email ≠ "") ∨
        (key = "phone" ∧ v = FSValue.str u.phone ∧ u.phone ≠ "") ∨
        (key = "address" ∧ v = FSValue.nested (services.buildNestedUpdateMap u.address) ∧
          services.buildNestedUpdateMap u.address ≠ []) ∨
        (key = "firebase_id" ∧ v = FSValue.str u.firebaseID ∧ u.firebaseID ≠ "")) ∧
    (∀ (a : Address) (key : String) (v : String),
        (key, v) ∈ services.buildNestedUpdateMap a →
        (key = "building_number" ∧ v = a.buildingNumber ∧ a.buildingNumber ≠ "") ∨
        (key = "street" ∧ v = a.street ∧ a.street ≠ "") ∨
        (key = "city" ∧ v = a.city ∧ a.city ≠ "") ∨
        (key = "zip_code" ∧ v = a.postCode ∧ a.postCode ≠ "") ∨
        (key = "country" ∧ v = a.country ∧ a.country ≠ "")) ∧
    services.userUpdatePayload phoneOnlyUser =
      some [("phone", FSValue.str "0123"), ("updated_at", FSValue.ts)] := by
  refine ⟨?_, ?_, by decide⟩
  · intro u key v h
    simp only [services.buildUpdateMapFromUser, List.mem_append] at h
    rcases h with ((((((h | h) | h) | h) | h) | h) | h)
    · obtain ⟨he, hc⟩ := mem_skip_chunk h
      rw [Prod.mk.injEq] at he
      exact Or.inl ⟨he.1, he.2, hc⟩
    · obtain ⟨he, hc⟩ := mem_skip_chunk h
      rw [Prod.mk.injEq] at he
      exact Or.inr (Or.inl ⟨he.1, he.2, hc⟩)
    · obtain ⟨he, hc⟩ := mem_skip_chunk h
      rw [Prod.mk.injEq] at he
      exact Or.inr (Or.inr (Or.inl ⟨he.1, he.2, hc⟩))
    · obtain ⟨he, hc⟩ := mem_skip_chunk h
      rw [Prod.mk.injEq] at he
      exact Or.inr (Or.inr (Or.inr (Or.inl ⟨he.1, he.2, hc⟩)))
    · obtain ⟨he, hc⟩ := mem_skip_chunk h
      rw [Prod.mk.injEq] at he
      exact Or.inr (Or.inr (Or.inr (Or.inr (Or.inl ⟨he.1, he.2, hc⟩))))
    · obtain ⟨he, hc⟩ := mem_keep_chunk h
      rw [Prod.mk.injEq] at he
      exact Or.inr (Or.inr (Or.inr (Or.inr (Or.inr (Or.inl
        ⟨he.1, he.2, List.ne_nil_of_length_pos hc⟩)))))
    · obtain ⟨he, hc⟩ := mem_skip_chunk h
      rw [Prod.mk.injEq] at he
      exact Or.inr (Or.inr (Or.inr (Or.inr (Or.inr (Or.inr ⟨he.1, he.2, hc⟩)))))
  · intro a key v h
    simp only [services.buildNestedUpdateMap, List.mem_append] at h
    rcases h with ((((h | h) | h) | h) | h)
    · obtain ⟨he, hc⟩ := mem_skip_chunk h
      rw [Prod.mk.injEq] at he
      exact Or.inl ⟨he.1, he.2, hc⟩
    · obtain ⟨he, hc⟩ := mem_skip_chunk h
      rw [Prod.mk.injEq] at he
      exact Or.inr (Or.inl ⟨he.1, he.2, hc⟩)
    · obtain ⟨he, hc⟩ := mem_skip_chunk h
      rw [Prod.mk.injEq] at he
      exact Or.inr (Or.inr (Or.inl ⟨he.1, he.2, hc⟩))
    · obtain ⟨he, hc⟩ := mem_skip_chunk h
      rw [Prod.mk.injEq] at he
      exact Or.inr (Or.inr (Or.inr (Or.inl ⟨he.1, he.2, hc⟩)))
    · obtain ⟨he, hc⟩ := mem_skip_chunk h
      rw [Prod.mk.injEq] at he
      exact Or.inr (Or.inr (Or.inr (Or.inr ⟨he.1, he.2, hc⟩)))

/-- C5 witness: the phone entry of the phone-only user's update map is in
the map, and the theorem concludes that its source field is non-zero. -/
theorem C5_witness :
    (("phone", FSValue.str "0123") ∈ services.buildUpdateMapFromUser phoneOnlyUser) ∧
    phoneOnlyUser.phone ≠ "" := by
  refine ⟨by decide, ?_⟩
  have h := C5_update_map_sparse.1 phoneOnlyUser "phone" (FSValue.str "0123") (by decide)
  rcases h with ⟨hk, _, _⟩ | ⟨hk, _, _⟩ | ⟨hk, _, _⟩ | ⟨hk, _, _⟩ |
    ⟨_, _, hp⟩ | ⟨hk, _, _⟩ | ⟨hk, _, _⟩
  · exact absurd hk (by decide)
  · exact absurd hk (by decide)
  · exact absurd hk (by decide)
  · exact absurd hk (by decide)
  · exact hp
  · exact absurd hk (by decide)
  · exact absurd hk (by decide)

/-!
File type sniffing and extension normalization
(internal/services/user_service.go, second part of the services package).
-/

/-- Embeds services.FileTypeInfo. -/
structure FileTypeInfo : Type where
  mimeType : String
  extension : String
deriving DecidableEq, Repr

/-- The two sniffing failures ErrInsufficientData and ErrUnknownFileType. -/
inductive FileTypeError : Type
  | insufficientData
  | unknownFileType
deriving DecidableEq, Repr

/-- Model of Go's bytes.HasPrefix on byte slices. -/
def bytesStartsWith (data sig : List UInt8) : Bool :=
  decide (data.take sig.length = sig)

namespace services

/-- The fixed signature table of DetectFileType, in source order: PDF,
TIFF little-endian, TIFF big-endian, PNG, JPEG, BMP. -/
def signatureTable : List (List UInt8) :=
  [[0x25, 0x50, 0x44, 0x46],
   [0x49, 0x49, 0x2A, 0x00],
   [0x4D, 0x4D, 0x00, 0x2A],
   [0x89, 0x50, 0x4E, 0x47, 0x0D, 0x0A, 0x1A, 0x0A],
   [0xFF, 0xD8, 0xFF],
   [0x42, 0x4D]]

/-- Embeds services.DetectFileType: requires at least 8 bytes, then checks
the magic-number table in source order. -/
def DetectFileType (data : List UInt8) : Except FileTypeError FileTypeInfo :=
  if data.length < 8 then Except.error FileTypeError.insufficientData
  else if bytesStartsWith data [0x25, 0x50, 0x44, 0x46] then
    Except.ok { mimeType := "application/pdf", extension := ".pdf" }
  else if bytesStartsWith data [0x49, 0x49, 0x2A, 0x00] then
    Except.ok { mimeType := "image/tiff", extension := ".tiff" }
  else if bytesStartsWith data [0x4D, 0x4D, 0x00, 0x2A] then
    Except.ok { mimeType := "image/tiff", extension := ".tiff" }
  else if bytesStartsWith data [0x89, 0x50, 0x4E, 0x47, 0x0D, 0x0A, 0x1A, 0x0A] then
    Except.ok { mimeType := "image/png", extension := ".png" }
  else if bytesStartsWith data [0xFF, 0xD8, 0xFF] then
    Except.ok { mimeType := "image/jpeg", extension := ".jpg" }
  else if bytesStartsWith data [0x42, 0x4D] then
    Except.ok { mimeType := "image/bmp", extension := ".bmp" }
  else Except.error FileTypeError.unknownFileType

end services

/-- Scan a reversed character list for the extension start, mirroring Go's
filepath.Ext loop: walk from the end of the path, stop at a path separator,
and return the suffix from the last dot (acc holds the characters already
passed, in original order). -/
def extFromRev : List Char → List Char → String
  | [], _ => ""
  | c :: rest, acc =>
    if c = '/' then "" else
    if c = '.' then String.mk ('.' :: acc) else extFromRev rest (c :: acc)

/-- Model of Go's filepath.Ext: the suffix of the final path element
beginning at the final dot, or "" if there is none. -/
def filepathExt (path : String) : String := extFromRev path.data.reverse []

namespace services

/-- Embeds services.GetStandardizedExtension: lower-case the extension of
the filename, map known aliases to the canonical form, pass canonical
extensions through, and default everything else to ".bin". -/
def GetStandardizedExtension (filename : String) : String :=
  let ext := strToLower (filepathExt filename)
  if ext = ".jpeg" ∨ ext = ".jpe" ∨ ext = ".jif" ∨ ext = ".jfif" then ".jpg"
  else if ext = ".tif" then ".tiff"
  else if ext = ".pdf" ∨ ext = ".png" ∨ ext = ".jpg" ∨ ext = ".tiff" ∨ ext = ".bmp" then ext
  else ".bin"

end services

/-- C7: DetectFileType fails with InsufficientData on inputs shorter than 8
bytes; on inputs of at least 8 bytes starting 25 50 44 46 it returns
application/pdf with extension .pdf; and on inputs of at least 8 bytes
matching no entry of the signature table it fails with UnknownType. -/
theorem C7_detect_file_type :
    (∀ data : List UInt8, data.length < 8 →
      services.DetectFileType data = Except.error FileTypeError.insufficientData) ∧
    (∀ data : List UInt8, 8 ≤ data.length →
      bytesStartsWith data [0x25, 0x50, 0x44, 0x46] = true →
      services.DetectFileType data =
        Except.ok { mimeType := "application/pdf", extension := ".pdf" }) ∧
    (∀ data : List UInt8, 8 ≤ data.length →
      (∀ sig ∈ services.signatureTable, bytesStartsWith data sig = false) →
      services.DetectFileType data = Except.error FileTypeError.unknownFileType) := by
  refine ⟨?_, ?_, ?_⟩
  · intro data h
    simp [services.DetectFileType, h]
  · intro data h hp
    simp [services.DetectFileType, show ¬ (data.length < 8) by omega, hp]
  · intro data h hsig
    have h1 := hsig [0x25, 0x50, 0x44, 0x46] (by decide)
    have h2 := hsig [0x49, 0x49, 0x2A, 0x00] (by decide)
    have h3 := hsig [0x4D, 0x4D, 0x00, 0x2A] (by decide)
    have h4 := hsig [0x89, 0x50, 0x4E, 0x47, 0x0D, 0x0A, 0x1A, 0x0A] (by decide)
    have h5 := hsig [0xFF, 0xD8, 0xFF] (by decide)
    have h6 := hsig [0x42, 0x4D] (by decide)
    simp [services.DetectFileType, show ¬ (data.length < 8) by omega,
      h1, h2, h3, h4, h5, h6]

/-- C7 witness: the 8-byte "%PDF-1.4" input classifies as PDF, a 2-byte
input fails with InsufficientData, and 8 zero bytes fail with UnknownType. -/
theorem C7_witness :
    (([0x89, 0x50] : List UInt8).length < 8 ∧
     services.DetectFileType [0x89, 0x50] = Except.error FileTypeError.insufficientData) ∧
    (8 ≤ ([0x25, 0x50, 0x44, 0x46, 0x2D, 0x31, 0x2E, 0x34] : List UInt8).length ∧
     bytesStartsWith [0x25, 0x50, 0x44, 0x46, 0x2D, 0x31, 0x2E, 0x34]
       [0x25, 0x50, 0x44, 0x46] = true ∧
     services.DetectFileType [0x25, 0x50, 0x44, 0x46, 0x2D, 0x31, 0x2E, 0x34] =
       Except.ok { mimeType := "application/pdf", extension := ".pdf" }) ∧
    (8 ≤ ([0, 0, 0, 0, 0, 0, 0, 0] : List UInt8).length ∧
     services.DetectFileType [0, 0, 0, 0, 0, 0, 0, 0] =
       Except.error FileTypeError.unknownFileType) :=
  ⟨⟨by decide, C7_detect_file_type.1 [0x89, 0x50] (by decide)⟩,
   ⟨by decide, by decide,
    C7_detect_file_type.2.1 [0x25, 0x50, 0x44, 0x46, 0x2D, 0x31, 0x2E, 0x34]
      (by decide) (by decide)⟩,
   ⟨by decide,
    C7_detect_file_type.2.2 [0, 0, 0, 0, 0, 0, 0, 0] (by decide) (by decide)⟩⟩

/-- C8: for every filename, writing ext for the lower-cased extension of
the input: the aliases .jpeg/.jpe/.jif/.jfif map to .jpg, .tif maps to
.tiff, the canonical extensions .pdf/.png/.jpg/.tiff/.bmp pass through
unchanged, and every other extension maps to .bin; in particular .JPEG
maps to .jpg, .TIF to .tiff, .docx to .bin, and .png stays .png. -/
theorem C8_standardized_extension :
    (∀ name : String,
      (strToLower (filepathExt name) = ".jpeg" ∨ strToLower (filepathExt name) = ".jpe" ∨
        strToLower (filepathExt name) = ".jif" ∨ strToLower (filepathExt name) = ".jfif" →
        services.GetStandardizedExtension name = ".jpg") ∧
      (strToLower (filepathExt name) = ".tif" →
        services.GetStandardizedExtension name = ".tiff") ∧
      (strToLower (filepathExt name) = ".pdf" ∨ strToLower (filepathExt name) = ".png" ∨
        strToLower (filepathExt name) = ".jpg" ∨ strToLower (filepathExt name) = ".tiff" ∨
        strToLower (filepathExt name) = ".bmp" →
        services.GetStandardizedExtension name = strToLower (filepathExt name)) ∧
      (strToLower (filepathExt name) ∉
          [".jpeg", ".jpe", ".jif", ".jfif", ".tif",
           ".pdf", ".png", ".jpg", ".tiff", ".bmp"] →
        services.GetStandardizedExtension name = ".bin")) ∧
    services.GetStandardizedExtension "photo.JPEG" = ".jpg" ∧
    services.GetStandardizedExtension "scan.TIF" = ".tiff" ∧
    services.GetStandardizedExtension "doc.docx" = ".bin" ∧
    services.GetStandardizedExtension "img.png" = ".png" := by
  refine ⟨?_, by decide, by decide, by decide, by decide⟩
  intro name
  refine ⟨?_, ?_, ?_, ?_⟩
  · intro h
    rcases h with h | h | h | h <;>
      · simp only [services.GetStandardizedExtension]
        rw [h]
        decide
  · intro h
    simp only [services.GetStandardizedExtension]
    rw [h]
    decide
  · intro h
    rcases h with h | h | h | h | h <;>
      · simp only [services.GetStandardizedExtension]
        rw [h]
        decide
  · intro h
    simp only [List.mem_cons, List.not_mem_nil, or_false, not_or] at h
    obtain ⟨h1, h2, h3, h4, h5, h6, h7, h8, h9, h10⟩ := h
    simp [services.GetStandardizedExtension, h1, h2, h3, h4, h5, h6, h7, h8, h9, h10]

/-- C8 witness: ".gif" is none of the known extensions, and the theorem's
default clause sends "anim.gif" to ".bin". -/
theorem C8_witness :
    (strToLower (filepathExt "anim.gif") ∉
       [".jpeg", ".jpe", ".jif", ".jfif", ".tif",
        ".pdf", ".png", ".jpg", ".tiff", ".bmp"]) ∧
    services.GetStandardizedExtension "anim.gif" = ".bin" :=
  ⟨by decide, (C8_standardized_extension.1 "anim.gif").2.2.2 (by decide)⟩

/-!
GCS blob store model (pkg/gcs/gcs.go).  A bucket is a list of object
attribute records plus the configured bucket name; a monotone clock stands
in for the server-side Updated timestamp.  Only the happy path of the
network client is modelled; transport failures are outside the model.
-/

/-- The object attributes GCS keeps per object and the code reads back:
name, size, content type, last update time. -/
structure ObjAttrs : Type where
  name : String
  size : Int
  contentType : String
  updated : Nat
deriving DecidableEq, Repr

/-- The blob store state: configured bucket name, stored objects, clock. -/
structure GCSState : Type where
  bucketName : String
  objects : List ObjAttrs
  clock : Nat
deriving DecidableEq, Repr

/-- Embeds gcs.FileInfo: path, size, content type, last modified, bucket. -/
structure FileInfo : Type where
  path : String
  size : Int
  contentType : String
  lastModified : Nat
  bucket : String
deriving DecidableEq, Repr

namespace gcs

/-- Embeds GCSStorage.Upload: write the object at the path with the given
content type, read its attributes back, and build the FileInfo from the
attributes with Bucket set to the configured bucket name. -/
def Upload (st : GCSState) (path : String) (content : List UInt8)
    (contentType : String) : FileInfo × GCSState :=
  let attrs : ObjAttrs :=
    { name := path, size := (content.length : Int), contentType := contentType,
      updated := st.clock }
  let objects' :=
    if st.objects.any (fun a => a.name = path) then
      st.objects.map (fun a => if a.name = path then attrs else a)
    else st.objects ++ [attrs]
  ({ path := attrs.name, size := attrs.size, contentType := attrs.contentType,
     lastModified := attrs.updated, bucket := st.bucketName },
   { st with objects := objects' })

/-- Embeds GCSStorage.Delete: delete the object at the path.  GCS object
deletion of a missing object fails (storage.ErrObjectNotExist). -/
def Delete (blobs : List ObjAttrs) (path : String) : Except String (List ObjAttrs) :=
  if blobs.any (fun a => a.name = path) then
    Except.ok (blobs.filter (fun a => decide (a.name ≠ path)))
  else Except.error "failed to delete object"

/-- Embeds GCSStorage.List: iterate the objects under the prefix and build
a FileInfo per object.  The Go composite literal sets Path, Size,
ContentType and LastModified but not Bucket, so Bucket is the string zero
value "". -/
def ListObjects (st : GCSState) (pre : String) : List FileInfo :=
  (st.objects.filter (fun a => strStartsWith a.name pre)).map
    (fun a =>
      { path := a.name, size := a.size, contentType := a.contentType,
        lastModified := a.updated, bucket := "" })

end gcs

/-- C6 counterexample: in a store whose configured bucket name is "b", the
listing of a stored object returns a FileInfo whose bucket field is not the
configured bucket identifier (it is empty), so not every FileInfo entry
returned by List carries the bucket. -/
theorem C6_counterexample :
    ¬ (∀ f ∈ gcs.ListObjects
          { bucketName := "b",
            objects := [{ name := "docs/a.pdf", size := 3,
                          contentType := "application/pdf", updated := 5 }],
            clock := 9 } "docs/",
        f.bucket = "b") := by
  decide

/-- C6 (amended): every FileInfo returned by Upload carries the path, size,
content type, last-modified time and the configured bucket name; every
FileInfo entry returned by List carries the path, size, content type and
last-modified time of a listed object, but its bucket field is left at the
empty string rather than the configured bucket. -/
theorem C6_fileinfo_fields :
    (∀ (st : GCSState) (path : String) (content : List UInt8) (ct : String),
      (gcs.Upload st path content ct).1.path = path ∧
      (gcs.Upload st path content ct).1.size = (content.length : Int) ∧
      (gcs.Upload st path content ct).1.contentType = ct ∧
      (gcs.Upload st path content ct).1.lastModified = st.clock ∧
      (gcs.Upload st path content ct).1.bucket = st.bucketName) ∧
    (∀ (st : GCSState) (pre : String), ∀ f ∈ gcs.ListObjects st pre,
      f.bucket = "" ∧ ∃ a ∈ st.objects, strStartsWith a.name pre = true ∧
        f.path = a.name ∧ f.size = a.size ∧ f.contentType = a.contentType ∧
        f.lastModified = a.updated) := by
  constructor
  · intro st path content ct
    exact ⟨rfl, rfl, rfl, rfl, rfl⟩
  · intro st pre f hf
    simp only [gcs.ListObjects, List.mem_map, List.mem_filter] at hf
    obtain ⟨a, ⟨hmem, hpre⟩, rfl⟩ := hf
    exact ⟨rfl, a, hmem, hpre, rfl, rfl, rfl, rfl⟩

/-- C6 witness: the single listed object of a concrete store is reported
with an empty bucket field and its stored attributes. -/
theorem C6_witness :
    ({ path := "docs/a.pdf", size := 3, contentType := "application/pdf",
       lastModified := 5, bucket := "" } : FileInfo) ∈
      gcs.ListObjects
        { bucketName := "b",
          objects := [{ name := "docs/a.pdf", size := 3,
                        contentType := "application/pdf", updated := 5 }],
          clock := 9 } "docs/" ∧
    ({ path := "docs/a.pdf", size := 3, contentType := "application/pdf",
       lastModified := 5, bucket := "" } : FileInfo).bucket = "" :=
  ⟨by decide,
   (C6_fileinfo_fields.2
     { bucketName := "b",
       objects := [{ name := "docs/a.pdf", size := 3,
                     contentType := "application/pdf", updated := 5 }],
       clock := 9 } "docs/"
     { path := "docs/a.pdf", size := 3, contentType := "application/pdf",
       lastModified := 5, bucket := "" } (by decide)).1⟩

/-!
Document service orchestration (internal/services/document_service.go).
The combined system state is the metadata collection (decoded
models.Document records keyed by document ID) and the blob store contents.
-/

/-- Embeds models.Document. -/
structure Document : Type where
  id : String
  userID : String
  name : String
  size : Int
  type : String
  contentType : String
  path : String
  bucket : String
  createdAt : Nat
  updatedAt : Nat
deriving DecidableEq, Repr

/-- The state the document service acts on: the metadata collection and
the blob store objects. -/
structure SysState : Type where
  docs : List (String × Document)
  blobs : List ObjAttrs
deriving DecidableEq, Repr

namespace services

/-- Embeds documentService.Delete: fetch the metadata record by ID, delete
the blob at the recorded path, then delete the metadata record.  Every
early return surfaces the wrapped error and leaves the state reached so
far; there is no rollback and no retry. -/
def documentDelete (st : SysState) (id : String) : Except String Unit × SysState :=
  match db.GetByID st.docs id with
  | Except.error e => (Except.error ("failed to get document by ID: " ++ e), st)
  | Except.ok doc =>
    match gcs.Delete st.blobs doc.path with
    | Except.error e => (Except.error ("failed to delete document from gcs: " ++ e), st)
    | Except.ok blobs' =>
      match db.Delete st.docs id with
      | Except.error e =>
        (Except.error ("failed to delete document from database: " ++ e),
         { st with blobs := blobs' })
      | Except.ok docs' => (Except.ok (), { docs := docs', blobs := blobs' })

end services

/-- C9: document deletion fetches the metadata record, deletes the blob,
then deletes the metadata record; when the blob deletion fails the call
surfaces the error and leaves the whole state, in particular the metadata
record, unchanged; when the blob exists the call succeeds and removes both
the blob and the metadata record. -/
theorem C9_delete_orchestration :
    (∀ (st : SysState) (id : String) (doc : Document),
      db.GetByID st.docs id = Except.ok doc →
      (∀ a ∈ st.blobs, a.name ≠ doc.path) →
      services.documentDelete st id =
        (Except.error ("failed to delete document from gcs: " ++
          "failed to delete object"), st)) ∧
    (∀ (st : SysState) (id : String) (doc : Document),
      db.GetByID st.docs id = Except.ok doc →
      (∃ a ∈ st.blobs, a.name = doc.path) →
      (services.documentDelete st id).1 = Except.ok () ∧
      (services.documentDelete st id).2.blobs =
        st.blobs.filter (fun a => decide (a.name ≠ doc.path)) ∧
      (services.documentDelete st id).2.docs =
        st.docs.filter (fun e => decide (e.1 ≠ id))) := by
  constructor
  · intro st id doc hget habs
    have hany : st.blobs.any (fun a => a.name = doc.path) = false := by
      rw [List.any_eq_false]
      intro a ha
      simpa using habs a ha
    simp [services.documentDelete, hget, gcs.Delete, hany]
  · intro st id doc hget hex
    have hany : st.blobs.any (fun a => a.name = doc.path) = true := by
      rw [List.any_eq_true]
      obtain ⟨a, ha, he⟩ := hex
      exact ⟨a, ha, by simpa using he⟩
    simp [services.documentDelete, hget, gcs.Delete, hany, db.Delete, fsDocDelete]

/-- C9 witness: a concrete one-record state; with the blob missing the
delete fails and leaves the state unchanged, discharging both hypotheses
of the failure case. -/
theorem C9_witness :
    (db.GetByID
        ([("d1", { id := "d1", userID := "u1", name := "n", size := 3,
                   type := "passport", contentType := "application/pdf",
                   path := "documents/u1/n.pdf", bucket := "b",
                   createdAt := 1, updatedAt := 2 })] : List (String × Document))
        "d1" =
      Except.ok { id := "d1", userID := "u1", name := "n", size := 3,
                  type := "passport", contentType := "application/pdf",
                  path := "documents/u1/n.pdf", bucket := "b",
                  createdAt := 1, updatedAt := 2 } ∧
     (∀ a ∈ ([] : List ObjAttrs), a.name ≠ "documents/u1/n.pdf")) ∧
    services.documentDelete
        { docs := [("d1", { id := "d1", userID := "u1", name := "n", size := 3,
                            type := "passport", contentType := "application/pdf",
                            path := "documents/u1/n.pdf", bucket := "b",
                            createdAt := 1, updatedAt := 2 })],
          blobs := [] } "d1" =
      (Except.error ("failed to delete document from gcs: " ++
        "failed to delete object"),
       { docs := [("d1", { id := "d1", userID := "u1", name := "n", size := 3,
                           type := "passport", contentType := "application/pdf",
                           path := "documents/u1/n.pdf", bucket := "b",
                           createdAt := 1, updatedAt := 2 })],
         blobs := [] }) :=
  ⟨⟨rfl, by simp⟩,
   C9_delete_orchestration.1
     { docs := [("d1", { id := "d1", userID := "u1", name := "n", size := 3,
                         type := "passport", contentType := "application/pdf",
                         path := "documents/u1/n.pdf", bucket := "b",
                         createdAt := 1, updatedAt := 2 })],
       blobs := [] } "d1"
     { id := "d1", userID := "u1", name := "n", size := 3,
       type := "passport", contentType := "application/pdf",
       path := "documents/u1/n.pdf", bucket := "b",
       createdAt := 1, updatedAt := 2 } rfl (by simp)⟩
